import Mathlib

/-!
Shallow embedding of the kinetics simulator (src/index.ts, the revision with
distance-based cooldown, `getAvgPos` and the pause flag).  JavaScript numbers
are embedded as rationals; the irrational-valued primitives `Math.sqrt`,
`Math.cos`, `Math.sin` and the draws of `Math.random` are supplied as function
parameters (`sq`, `cq`, `sn`, `g : Nat → ℚ`), so every definition stays
computable.  JavaScript object identity and in-place mutation are modelled with
a particle heap (`Store`, an association list from allocation ids to
particles); arrays of particle references become lists of ids, and `splice` on
a shared array is modelled by returning the updated id list to the caller.
-/

namespace Kinetics

structure Vector where
  x : ℚ
  y : ℚ
deriving DecidableEq

def Vector.getCopy (v : Vector) : Vector := ⟨v.x, v.y⟩

/-- `getMagnitude` is `Math.sqrt(x**2 + y**2)`; `sq` stands for `Math.sqrt`. -/
def Vector.getMagnitude (sq : ℚ → ℚ) (v : Vector) : ℚ := sq (v.x ^ 2 + v.y ^ 2)

def Vector.getScaled (v : Vector) (scaler : ℚ) : Vector := ⟨scaler * v.x, scaler * v.y⟩

def Vector.getNeg (v : Vector) : Vector := v.getScaled (-1)

def Vector.getAddition (v other : Vector) : Vector := ⟨v.x + other.x, v.y + other.y⟩

def Vector.getDifference (v other : Vector) : Vector := ⟨other.x - v.x, other.y - v.y⟩

def Vector.getNormalized (sq : ℚ → ℚ) (v : Vector) : Vector :=
  let mag := v.getMagnitude sq
  if mag = 0 then ⟨0, 0⟩ else ⟨v.x / mag, v.y / mag⟩

/-- Rotation by `theta` radians; `cq`/`sn` stand for `Math.cos`/`Math.sin`. -/
def Vector.getRotated (cq sn : ℚ → ℚ) (v : Vector) (theta : ℚ) : Vector :=
  ⟨v.x * cq theta - v.y * sn theta, v.x * sn theta + v.y * cq theta⟩

inductive PState where
  | active
  | cooldown
  | removed
deriving DecidableEq

structure Particle where
  formula : String
  color : String
  radius : ℚ
  pos : Vector
  vel : Vector
  temperature : ℚ
  state : PState
  cooldownDist : ℚ
deriving DecidableEq

structure Dimensions where
  height : ℚ
  width : ℚ
deriving DecidableEq

def Particle.changeTemperature (sq : ℚ → ℚ) (p : Particle) (temperature : ℚ) : Particle :=
  if p.temperature = 0 then p
  else
    let speedScaler := p.vel.getMagnitude sq / p.temperature
    let newVel := (p.vel.getNormalized sq).getScaled (speedScaler * temperature)
    { p with vel := newVel, temperature := temperature }

def Particle.update (canvas : Dimensions) (sq : ℚ → ℚ) (p : Particle) : Particle :=
  let px := p.pos.x + p.vel.x
  let py := p.pos.y + p.vel.y
  let nx1 := if px - p.radius < 0 then p.radius else px
  let vx1 := if px - p.radius < 0 then -p.vel.x else p.vel.x
  let nx2 := if nx1 + p.radius > canvas.width then canvas.width - p.radius else nx1
  let vx2 := if nx1 + p.radius > canvas.width then -vx1 else vx1
  let ny1 := if py - p.radius < 0 then p.radius else py
  let vy1 := if py - p.radius < 0 then -p.vel.y else p.vel.y
  let ny2 := if ny1 + p.radius > canvas.height then canvas.height - p.radius else ny1
  let vy2 := if ny1 + p.radius > canvas.height then -vy1 else vy1
  let newVel : Vector := ⟨vx2, vy2⟩
  let cd1 := if p.cooldownDist > 0 then p.cooldownDist - newVel.getMagnitude sq else p.cooldownDist
  if cd1 ≤ 0 ∨ p.state = PState.active then
    { p with pos := ⟨nx2, ny2⟩, vel := newVel, cooldownDist := 0, state := PState.active }
  else
    { p with pos := ⟨nx2, ny2⟩, vel := newVel, cooldownDist := cd1 }

structure MolFormula where
  formula : String
  molCoeff : Nat
deriving DecidableEq

structure Reaction where
  name : String
  reactants : List MolFormula
  products : List MolFormula
  reversible : Bool
deriving DecidableEq

def RADIUS : ℚ := 10

def COOLDOWN_DIST : ℚ := 2 * RADIUS

def MAX_SPEED_SCALER : ℚ := 1 / 2

def getParticleColor (formula : String) : String :=
  if formula = "A" then "blue"
  else if formula = "B" then "red"
  else if formula = "C" then "orange"
  else "black"

def getDist (sq : ℚ → ℚ) (pos1 pos2 : Vector) : ℚ :=
  sq ((pos1.x - pos2.x) ^ 2 + (pos1.y - pos2.y) ^ 2)

/-- `createParticle` draws `speedScaler` and `angle` with `Math.random`; the
stream `g` supplies the drawn values and `idx` is the position in the stream. -/
def createParticle (cq sn : ℚ → ℚ) (g : Nat → ℚ) (idx : Nat) (formula : String)
    (pos : Vector) (temperature : ℚ) (cooldownDist : ℚ) : Particle × Nat :=
  let speedVec : Vector := ⟨temperature, 0⟩
  let speedScaler := g idx
  let angle := g (idx + 1)
  let base : Particle :=
    ⟨formula, getParticleColor formula, RADIUS, pos,
      (speedVec.getScaled speedScaler).getRotated cq sn angle,
      temperature, PState.active, 0⟩
  if cooldownDist ≠ 0 then
    ({ base with state := PState.cooldown, cooldownDist := cooldownDist }, idx + 2)
  else
    (base, idx + 2)

/-- The particle heap: ids stand for JavaScript object references. -/
abbrev Store := List (Nat × Particle)

/-- Totality device for heap lookups; the source never follows a dangling
reference, so this value never matters in a well-formed run. -/
def defaultParticle : Particle := ⟨"", "black", RADIUS, ⟨0, 0⟩, ⟨0, 0⟩, 0, PState.active, 0⟩

def getP (σ : Store) (i : Nat) : Particle := (List.lookup i σ).getD defaultParticle

def setP (σ : Store) (i : Nat) (p : Particle) : Store :=
  σ.map fun e => if e.1 = i then (i, p) else e

/-- `removeParticles`: sets each listed particle's state to "removed". -/
def removeParticles (σ : Store) (ids : List Nat) : Store :=
  ids.foldl (fun τ i => setP τ i { getP τ i with state := PState.removed }) σ

/-- The shared body of `getFwdConsumedParticles` / `getRevConsumedParticles`:
for each required species, count the active matching candidates, fail if fewer
than the coefficient, otherwise `splice(0, molCoeff)` off the candidate array.
The mutated candidate array is returned in the second component even on
failure, because the source splices the caller's array in place. -/
def consumeLoop (σ : Store) : List MolFormula → List Nat → List Nat → Option (List Nat) × List Nat
  | [], cands, acc => (some acc, cands)
  | mf :: rest, cands, acc =>
      let matching := cands.filter fun i =>
        decide ((getP σ i).state = PState.active ∧ (getP σ i).formula = mf.formula)
      if matching.length < mf.molCoeff then (none, cands)
      else consumeLoop σ rest (cands.drop mf.molCoeff) (acc ++ cands.take mf.molCoeff)

def getFwdConsumedParticles (σ : Store) (r : Reaction) (intersecting : List Nat) :
    Option (List Nat) × List Nat :=
  consumeLoop σ r.reactants intersecting []

def getRevConsumedParticles (σ : Store) (r : Reaction) (intersecting : List Nat) :
    Option (List Nat) × List Nat :=
  consumeLoop σ r.products intersecting []

def getAvgPos (σ : Store) (ids : List Nat) : Vector :=
  if ids.length = 0 then ⟨0, 0⟩
  else
    ⟨(ids.map fun i => (getP σ i).pos.x).sum / (ids.length : ℚ),
     (ids.map fun i => (getP σ i).pos.y).sum / (ids.length : ℚ)⟩

def createMany (cq sn : ℚ → ℚ) (g : Nat → ℚ) (formula : String) (loc : Vector)
    (temperature : ℚ) : Nat → Nat → List Particle × Nat
  | 0, idx => ([], idx)
  | n + 1, idx =>
      let res1 := createParticle cq sn g idx formula loc temperature COOLDOWN_DIST
      let res2 := createMany cq sn g formula loc temperature n res1.2
      (res1.1 :: res2.1, res2.2)

def produceSide (cq sn : ℚ → ℚ) (g : Nat → ℚ) (loc : Vector) (temperature : ℚ) :
    List MolFormula → Nat → List Particle × Nat
  | [], idx => ([], idx)
  | mf :: rest, idx =>
      let res1 := createMany cq sn g mf.formula loc temperature mf.molCoeff idx
      let res2 := produceSide cq sn g loc temperature rest res1.2
      (res1.1 ++ res2.1, res2.2)

def getFwdProducedParticles (cq sn : ℚ → ℚ) (g : Nat → ℚ) (r : Reaction) (loc : Vector)
    (temperature : ℚ) (idx : Nat) : List Particle × Nat :=
  produceSide cq sn g loc temperature r.products idx

def getRevProducedParticles (cq sn : ℚ → ℚ) (g : Nat → ℚ) (r : Reaction) (loc : Vector)
    (temperature : ℚ) (idx : Nat) : List Particle × Nat :=
  produceSide cq sn g loc temperature r.reactants idx

/-- Allocate freshly created particles into the heap, handing out consecutive
ids starting at `nid`; returns the heap, the next free id and the new ids. -/
def allocAll (σ : Store) (nid : Nat) : List Particle → Store × Nat × List Nat
  | [] => (σ, nid, [])
  | p :: ps =>
      let res := allocAll ((nid, p) :: σ) (nid + 1) ps
      (res.1, res.2.1, nid :: res.2.2)

/-- The mutable context of one `attemptReaction` call: the heap, the shared
candidate array, the creation queue, the allocator and the random stream
position. -/
structure RState where
  store : Store
  cands : List Nat
  queue : List Nat
  nextId : Nat
  rnd : Nat
deriving DecidableEq

/-- Committing one direction: mark the consumed particles removed, then create
the opposite side's particles at the average position of the consumed set and
append them to the creation queue. -/
def commitDir (cq sn : ℚ → ℚ) (g : Nat → ℚ) (side : List MolFormula) (temperature : ℚ)
    (s : RState) (consumed cands1 : List Nat) : RState :=
  let σ1 := removeParticles s.store consumed
  let loc := getAvgPos σ1 consumed
  let res := produceSide cq sn g loc temperature side s.rnd
  let alloc := allocAll σ1 s.nextId res.1
  ⟨alloc.1, cands1, s.queue ++ alloc.2.2, alloc.2.1, res.2⟩

/-- `Reaction.attemptReaction`: try the forward direction; on success commit it.
Otherwise the reverse matcher runs unconditionally (as in the source, where
`getRevConsumedParticles` is called before the `reversible` test), and its
result is committed only when the reaction is reversible. -/
def attemptReaction (cq sn : ℚ → ℚ) (g : Nat → ℚ) (r : Reaction) (temperature : ℚ)
    (s : RState) : Bool × RState :=
  match getFwdConsumedParticles s.store r s.cands with
  | (some consumed, cands1) => (true, commitDir cq sn g r.products temperature s consumed cands1)
  | (none, cands1) =>
      match r.reversible, getRevConsumedParticles s.store r cands1 with
      | true, (some consumed, cands2) =>
          (true, commitDir cq sn g r.reactants temperature s consumed cands2)
      | _, (_, cands2) => (false, { s with cands := cands2 })

/-- The sweep of `updateFrame`: delete removed particles (in-place splice with
the index not advancing), apply the physics update to the rest. -/
def sweepLoop (canvas : Dimensions) (sq : ℚ → ℚ) (σ : Store) : List Nat → Store × List Nat
  | [] => (σ, [])
  | i :: rest =>
      if (getP σ i).state = PState.removed then sweepLoop canvas sq σ rest
      else
        let σ1 := setP σ i (Particle.update canvas sq (getP σ i))
        let res := sweepLoop canvas sq σ1 rest
        (res.1, i :: res.2)

/-- The neighbourhood of particle `i`: itself plus every other active particle
whose distance to it is strictly below the sum of radii. -/
def buildAvail (sq : ℚ → ℚ) (σ : Store) (i : Nat) (all : List Nat) : List Nat :=
  i :: all.filter fun j =>
    decide (j ≠ i ∧ (getP σ j).state = PState.active ∧
      getDist sq (getP σ i).pos (getP σ j).pos < (getP σ i).radius + (getP σ j).radius)

/-- Try the rules in list order, stopping at the first success; the candidate
array mutations of failed attempts persist into the next attempt. -/
def tryReactions (cq sn : ℚ → ℚ) (g : Nat → ℚ) (temperature : ℚ) :
    List Reaction → RState → RState
  | [], s => s
  | r :: rest, s =>
      let res := attemptReaction cq sn g r temperature s
      if res.1 then res.2 else tryReactions cq sn g temperature rest res.2

/-- The reaction sweep of `updateFrame`, threading heap, queue, allocator and
random stream through the per-particle reaction attempts. -/
def reactLoop (sq cq sn : ℚ → ℚ) (g : Nat → ℚ) (temperature : ℚ) (rxns : List Reaction)
    (all : List Nat) : List Nat → Store × List Nat × Nat × Nat → Store × List Nat × Nat × Nat
  | [], acc => acc
  | i :: rest, (σ, queue, nid, rnd) =>
      if (getP σ i).state ≠ PState.active then
        reactLoop sq cq sn g temperature rxns all rest (σ, queue, nid, rnd)
      else
        let avail := buildAvail sq σ i all
        let s1 := tryReactions cq sn g temperature rxns ⟨σ, avail, queue, nid, rnd⟩
        reactLoop sq cq sn g temperature rxns all rest (s1.store, s1.queue, s1.nextId, s1.rnd)

structure SimState where
  store : Store
  particleList : List Nat
  particleCreationQueue : List Nat
  nextId : Nat
  rnd : Nat
  containerPaused : Bool
  containerTemperature : ℚ
deriving DecidableEq

/-- One tick: if paused do nothing; otherwise merge the creation queue into the
live list and clear it, sweep/update, then run the reaction phase over the
swept list (which also serves as the list scanned for neighbours). -/
def updateFrame (canvas : Dimensions) (rxns : List Reaction) (sq cq sn : ℚ → ℚ)
    (g : Nat → ℚ) (st : SimState) : SimState :=
  if st.containerPaused then st
  else
    let live := st.particleList ++ st.particleCreationQueue
    let swept := sweepLoop canvas sq st.store live
    let res := reactLoop sq cq sn g st.containerTemperature rxns swept.2 swept.2
      (swept.1, [], st.nextId, st.rnd)
    { st with
        store := res.1
        particleList := swept.2
        particleCreationQueue := res.2.1
        nextId := res.2.2.1
        rnd := res.2.2.2 }

/-! Concrete instances used in counterexamples and witnesses. -/

def qid : ℚ → ℚ := fun q => q

def gzero : Nat → ℚ := fun _ => 0

def szero : ℚ → ℚ := fun _ => 0

/-- An exact square-root table for the inputs arising in the temperature
witness: 25 ↦ 5 and 100 ↦ 10. -/
def sqTable : ℚ → ℚ := fun q => if q = 25 then 5 else if q = 100 then 10 else 0

def pA : Particle := ⟨"A", "blue", 10, ⟨0, 0⟩, ⟨0, 0⟩, 2, PState.active, 0⟩

def pB : Particle := ⟨"B", "red", 10, ⟨0, 0⟩, ⟨0, 0⟩, 2, PState.active, 0⟩

def rxn2A2B : Reaction := ⟨"rxn1", [⟨"A", 2⟩], [⟨"B", 2⟩], true⟩

def storeBAA : Store := [(0, pB), (1, pA), (2, pA)]

def rxnAC : Reaction := ⟨"rxnAC", [⟨"A", 1⟩, ⟨"C", 1⟩], [⟨"D", 1⟩], false⟩

def storeA : Store := [(0, pA)]

def sAC : RState := ⟨storeA, [0], [], 1, 0⟩

def rxnAB1 : Reaction := ⟨"rxnAB", [⟨"A", 1⟩], [⟨"B", 1⟩], false⟩

def storeB : Store := [(0, pB)]

def sB : RState := ⟨storeB, [0], [], 1, 0⟩

def storeAABB : Store := [(0, pA), (1, pA), (2, pB), (3, pB)]

def sAABB : RState := ⟨storeAABB, [0, 1, 2, 3], [], 4, 0⟩

def canvas800 : Dimensions := ⟨800, 800⟩

def canvas100 : Dimensions := ⟨100, 100⟩

def pA400 : Particle := ⟨"A", "blue", 10, ⟨400, 400⟩, ⟨0, 0⟩, 2, PState.active, 0⟩

def st2A : SimState := ⟨[(0, pA400), (1, pA400)], [0, 1], [], 2, 0, false, 2⟩

def stPaused : SimState := ⟨[(0, pA400)], [0], [], 1, 0, true, 2⟩

def pV34 : Particle := ⟨"A", "blue", 10, ⟨0, 0⟩, ⟨3, 4⟩, 2, PState.active, 0⟩

def pT0 : Particle := ⟨"A", "blue", 10, ⟨0, 0⟩, ⟨3, 4⟩, 0, PState.active, 0⟩

def pCorner : Particle := ⟨"A", "blue", 10, ⟨5, 5⟩, ⟨-10, -10⟩, 2, PState.active, 0⟩

def pRem : Particle := ⟨"A", "blue", 10, ⟨50, 50⟩, ⟨0, 0⟩, 2, PState.removed, 0⟩

def pA400r : Particle := ⟨"A", "blue", 10, ⟨400, 400⟩, ⟨0, 0⟩, 2, PState.removed, 0⟩

/-- The result of one tick on the 2A-scenario state, with the numeric
primitives left abstract. -/
def st2A_tick (sq cq sn : ℚ → ℚ) (g : Nat → ℚ) : SimState :=
  updateFrame canvas800 [rxn2A2B] sq cq sn g st2A

/-! ### Helper lemmas -/

theorem consumeLoop_sublist (σ : Store) (side : List MolFormula) :
    ∀ cands acc, List.Sublist (consumeLoop σ side cands acc).2 cands := by
  induction side with
  | nil => intro cands acc; exact List.Sublist.refl _
  | cons mf rest ih =>
      intro cands acc
      simp only [consumeLoop]
      split
      · exact List.Sublist.refl _
      · exact (ih _ _).trans (List.drop_sublist _ _)

/-! ### Claim theorems -/

/-- C1: with candidates `[B, A, A]` (all active) and the rule `2A ⇌ 2B`, the
forward matcher succeeds but the consumed list is the first two candidates
`[B, A]`, so it contains a particle whose formula is "B", which is not a
required reactant species: the consumed particles are NOT drawn from the
filtered set `{state == Active, formula == required}`.  The filter is used only
for the count check; consumption splices from the front of the raw candidate
array. -/
theorem getFwdConsumed_takes_nonmatching :
    getFwdConsumedParticles storeBAA rxn2A2B [0, 1, 2] = (some [0, 1], [2]) ∧
    (getP storeBAA 0).formula = "B" ∧
    (getP storeBAA 0).state = PState.active ∧
    ∀ mf ∈ rxn2A2B.reactants, mf.formula ≠ "B" := by
  refine ⟨by decide, by decide, by decide, by decide⟩

/-- C2 counterexample: with the rule `A + C → D` and a single active "A"
candidate, the forward match fails (no "C"), zero particles change state, but
the speculative splice of the "A" from the earlier requirement persists in the
caller's candidate list — it is `[]` afterwards, not `[0]`: there is no local
copy inside the call. -/
theorem attemptReaction_mutates_callers_candidates :
    (attemptReaction qid qid gzero rxnAC 2 sAC).1 = false ∧
    (attemptReaction qid qid gzero rxnAC 2 sAC).2.store = sAC.store ∧
    (attemptReaction qid qid gzero rxnAC 2 sAC).2.cands = [] ∧
    sAC.cands = [0] := by
  refine ⟨by decide, by decide, by decide, by decide⟩

/-- C2 (amended): matching is all-or-nothing with respect to particle states
and the creation queue — a failed `attemptReaction` changes no particle state,
enqueues nothing and allocates nothing — but the speculative splices are made
on the caller's shared candidate array itself (not a local copy), so the
surviving candidate list is a sublist of the original and the removals persist
to the caller. -/
theorem attemptReaction_failure_all_or_nothing (cq sn : ℚ → ℚ) (g : Nat → ℚ)
    (r : Reaction) (temperature : ℚ) (s : RState)
    (h : (attemptReaction cq sn g r temperature s).1 = false) :
    (attemptReaction cq sn g r temperature s).2.store = s.store ∧
    (attemptReaction cq sn g r temperature s).2.queue = s.queue ∧
    (attemptReaction cq sn g r temperature s).2.nextId = s.nextId ∧
    List.Sublist (attemptReaction cq sn g r temperature s).2.cands s.cands := by
  have hc1 : List.Sublist (getFwdConsumedParticles s.store r s.cands).2 s.cands :=
    consumeLoop_sublist _ _ _ _
  rcases hf : getFwdConsumedParticles s.store r s.cands with ⟨o1, cands1⟩
  rw [hf] at hc1
  cases o1 with
  | some c =>
      simp only [attemptReaction, hf] at h
      exact Bool.noConfusion h
  | none =>
      have hc2 : List.Sublist (getRevConsumedParticles s.store r cands1).2 cands1 :=
        consumeLoop_sublist _ _ _ _
      rcases hr : getRevConsumedParticles s.store r cands1 with ⟨o2, cands2⟩
      rw [hr] at hc2
      cases hb : r.reversible with
      | true =>
          cases o2 with
          | some c =>
              simp only [attemptReaction, hf, hr, hb] at h
              exact Bool.noConfusion h
          | none =>
              simp only [attemptReaction, hf, hr, hb, true_and]
              exact hc2.trans hc1
      | false =>
          cases o2 <;>
            · simp only [attemptReaction, hf, hr, hb, true_and]
              exact hc2.trans hc1

/-- C2 witness for `attemptReaction_failure_all_or_nothing`, at the concrete
failing input of the rule `A + C → D` on a single active "A". -/
theorem attemptReaction_failure_all_or_nothing_witness :
    (attemptReaction qid qid gzero rxnAC 2 sAC).1 = false ∧
    ((attemptReaction qid qid gzero rxnAC 2 sAC).2.store = sAC.store ∧
     (attemptReaction qid qid gzero rxnAC 2 sAC).2.queue = sAC.queue ∧
     (attemptReaction qid qid gzero rxnAC 2 sAC).2.nextId = sAC.nextId ∧
     List.Sublist (attemptReaction qid qid gzero rxnAC 2 sAC).2.cands sAC.cands) :=
  ⟨by decide, attemptReaction_failure_all_or_nothing qid qid gzero rxnAC 2 sAC (by decide)⟩

/-- C3: the forward direction is always attempted first, and whenever it is
satisfiable (in particular when both directions are simultaneously
satisfiable), the call returns success and the resulting state is exactly the
forward commit — forward consumed particles marked removed, forward products
enqueued — with the reverse direction never fired. -/
theorem attemptReaction_forward_first (cq sn : ℚ → ℚ) (g : Nat → ℚ) (r : Reaction)
    (temperature : ℚ) (s : RState) (consumed cands1 rc : List Nat)
    (hf : getFwdConsumedParticles s.store r s.cands = (some consumed, cands1))
    (_hr : (getRevConsumedParticles s.store r s.cands).1 = some rc) :
    attemptReaction cq sn g r temperature s =
      (true, commitDir cq sn g r.products temperature s consumed cands1) := by
  simp only [attemptReaction, hf]

/-- C3 witness: with the reversible rule `2A ⇌ 2B` on four active candidates
`[A, A, B, B]` both directions are satisfiable, and the call returns the
forward commit. -/
theorem attemptReaction_forward_first_witness :
    (getFwdConsumedParticles sAABB.store rxn2A2B sAABB.cands = (some [0, 1], [2, 3]) ∧
     (getRevConsumedParticles sAABB.store rxn2A2B sAABB.cands).1 = some [0, 1]) ∧
    attemptReaction qid qid gzero rxn2A2B 2 sAABB =
      (true, commitDir qid qid gzero rxn2A2B.products 2 sAABB [0, 1] [2, 3]) :=
  ⟨⟨by decide, by decide⟩,
    attemptReaction_forward_first qid qid gzero rxn2A2B 2 sAABB [0, 1] [2, 3] [0, 1]
      (by decide) (by decide)⟩

/-- C4 counterexample: for the non-reversible rule `A → B` with a single active
"B" candidate, the forward match fails leaving the candidate list `[0]`, yet
`attemptReaction` still runs the reverse matcher, whose splice empties the
caller's candidate list; the call does NOT leave the candidate list as the
failed forward attempt left it. -/
theorem attemptReaction_nonreversible_still_matches_reverse :
    rxnAB1.reversible = false ∧
    (attemptReaction qid qid gzero rxnAB1 2 sB).1 = false ∧
    (getFwdConsumedParticles sB.store rxnAB1 sB.cands).2 = [0] ∧
    (attemptReaction qid qid gzero rxnAB1 2 sB).2.cands = [] := by
  refine ⟨by decide, by decide, by decide, by decide⟩

/-- C4 (amended): when the forward direction fails on a non-reversible
reaction, `attemptReaction` returns failure and commits nothing — particle
states, queue and allocator are untouched — but it still performs
reverse-direction matching unconditionally, and the caller's candidate list
ends as that unconditional reverse match leaves it (not as the failed forward
attempt left it). -/
theorem attemptReaction_nonreversible_no_commit (cq sn : ℚ → ℚ) (g : Nat → ℚ)
    (r : Reaction) (temperature : ℚ) (s : RState) (cands1 : List Nat)
    (hrev : r.reversible = false)
    (hf : getFwdConsumedParticles s.store r s.cands = (none, cands1)) :
    attemptReaction cq sn g r temperature s =
      (false, { s with cands := (getRevConsumedParticles s.store r cands1).2 }) := by
  rcases hr : getRevConsumedParticles s.store r cands1 with ⟨o2, cands2⟩
  cases o2 <;> simp only [attemptReaction, hf, hr, hrev]

/-- C4 witness for `attemptReaction_nonreversible_no_commit`, at the concrete
input of the non-reversible rule `A → B` on a single active "B". -/
theorem attemptReaction_nonreversible_no_commit_witness :
    (rxnAB1.reversible = false ∧
     getFwdConsumedParticles sB.store rxnAB1 sB.cands = (none, [0])) ∧
    attemptReaction qid qid gzero rxnAB1 2 sB =
      (false, { sB with cands := (getRevConsumedParticles sB.store rxnAB1 [0]).2 }) :=
  ⟨⟨by decide, by decide⟩,
    attemptReaction_nonreversible_no_commit qid qid gzero rxnAB1 2 sB [0]
      (by decide) (by decide)⟩

/-- C7: boundary reflection.  Under the non-degeneracy assumption that the
particle's diameter fits the container, whenever the tentative position
`pos + vel` crosses a boundary half-plane on some axis (accounting for the
radius), `update` clamps that axis to the boundary inset by the radius and
flips that axis's velocity component; the four half-planes act independently,
so a corner crossing reflects both axes in the same tick. -/
theorem update_boundary_reflection (canvas : Dimensions) (sq : ℚ → ℚ) (p : Particle)
    (hw : 2 * p.radius ≤ canvas.width) (hh : 2 * p.radius ≤ canvas.height) :
    (p.pos.x + p.vel.x - p.radius < 0 →
      (Particle.update canvas sq p).pos.x = p.radius ∧
      (Particle.update canvas sq p).vel.x = -p.vel.x) ∧
    (p.pos.x + p.vel.x + p.radius > canvas.width →
      (Particle.update canvas sq p).pos.x = canvas.width - p.radius ∧
      (Particle.update canvas sq p).vel.x = -p.vel.x) ∧
    (p.pos.y + p.vel.y - p.radius < 0 →
      (Particle.update canvas sq p).pos.y = p.radius ∧
      (Particle.update canvas sq p).vel.y = -p.vel.y) ∧
    (p.pos.y + p.vel.y + p.radius > canvas.height →
      (Particle.update canvas sq p).pos.y = canvas.height - p.radius ∧
      (Particle.update canvas sq p).vel.y = -p.vel.y) := by
  simp only [Particle.update]
  split_ifs <;>
    refine ⟨fun hx1 => ⟨?_, ?_⟩, fun hx2 => ⟨?_, ?_⟩, fun hy1 => ⟨?_, ?_⟩, fun hy2 => ⟨?_, ?_⟩⟩ <;>
    first
      | rfl
      | (exfalso; linarith)

/-- C7 witness: a corner-crossing particle at `(5,5)` with velocity `(-10,-10)`
in a 100×100 container ends the tick at `(radius, radius)` with both velocity
components negated. -/
theorem update_boundary_reflection_witness :
    (Particle.update canvas100 qid pCorner).pos.x = pCorner.radius ∧
    (Particle.update canvas100 qid pCorner).vel.x = -pCorner.vel.x ∧
    (Particle.update canvas100 qid pCorner).pos.y = pCorner.radius ∧
    (Particle.update canvas100 qid pCorner).vel.y = -pCorner.vel.y := by
  have h := update_boundary_reflection canvas100 qid pCorner
    (by norm_num [pCorner, canvas100]) (by norm_num [pCorner, canvas100])
  exact ⟨(h.1 (by norm_num [pCorner])).1, (h.1 (by norm_num [pCorner])).2,
    (h.2.2.1 (by norm_num [pCorner])).1, (h.2.2.1 (by norm_num [pCorner])).2⟩

/-- C8: `changeTemperature` is a no-op when the current temperature is exactly
0 (no division by zero); otherwise, for positive temperatures and an exact
square root at the two magnitudes involved, it sets the temperature to
`newTemp` and rescales the velocity so that the speed-to-temperature ratio is
preserved: `|vel|/newTemp` afterwards equals `|vel|/temperature` before. -/
theorem changeTemperature_preserves_ratio (sq : ℚ → ℚ) (p : Particle) (newTemp : ℚ) :
    (p.temperature = 0 → Particle.changeTemperature sq p newTemp = p) ∧
    (0 < p.temperature → 0 < newTemp →
      0 ≤ sq (p.vel.x ^ 2 + p.vel.y ^ 2) →
      sq (p.vel.x ^ 2 + p.vel.y ^ 2) ^ 2 = p.vel.x ^ 2 + p.vel.y ^ 2 →
      0 ≤ sq ((Particle.changeTemperature sq p newTemp).vel.x ^ 2 +
              (Particle.changeTemperature sq p newTemp).vel.y ^ 2) →
      sq ((Particle.changeTemperature sq p newTemp).vel.x ^ 2 +
          (Particle.changeTemperature sq p newTemp).vel.y ^ 2) ^ 2 =
        (Particle.changeTemperature sq p newTemp).vel.x ^ 2 +
        (Particle.changeTemperature sq p newTemp).vel.y ^ 2 →
      (Particle.changeTemperature sq p newTemp).temperature = newTemp ∧
      ((Particle.changeTemperature sq p newTemp).vel.getMagnitude sq) / newTemp =
        (p.vel.getMagnitude sq) / p.temperature) := by
  constructor
  · intro h0
    simp [Particle.changeTemperature, h0]
  · intro ht hnt h1 h2 h3 h4
    have ht' : p.temperature ≠ 0 := ne_of_gt ht
    have hnt' : newTemp ≠ 0 := ne_of_gt hnt
    have hq : Particle.changeTemperature sq p newTemp =
        { p with
            vel := (p.vel.getNormalized sq).getScaled
              (p.vel.getMagnitude sq / p.temperature * newTemp)
            temperature := newTemp } := by
      simp [Particle.changeTemperature, ht']
    have hvel : (Particle.changeTemperature sq p newTemp).vel =
        (p.vel.getNormalized sq).getScaled
          (p.vel.getMagnitude sq / p.temperature * newTemp) := by
      rw [hq]
    have htemp : (Particle.changeTemperature sq p newTemp).temperature = newTemp := by
      rw [hq]
    rw [hvel] at h3 h4 ⊢
    refine ⟨htemp, ?_⟩
    have harg :
        ((p.vel.getNormalized sq).getScaled
            (p.vel.getMagnitude sq / p.temperature * newTemp)).x ^ 2 +
          ((p.vel.getNormalized sq).getScaled
            (p.vel.getMagnitude sq / p.temperature * newTemp)).y ^ 2 =
        (p.vel.x ^ 2 + p.vel.y ^ 2) * (newTemp / p.temperature) ^ 2 := by
      by_cases hm : sq (p.vel.x ^ 2 + p.vel.y ^ 2) = 0
      · have hm0 : p.vel.x ^ 2 + p.vel.y ^ 2 = 0 := by rw [← h2, hm]; norm_num
        simp only [Vector.getNormalized, Vector.getMagnitude, Vector.getScaled]
        rw [if_pos hm]
        simp [hm0]
      · simp only [Vector.getNormalized, Vector.getMagnitude, Vector.getScaled]
        rw [if_neg hm]
        field_simp
        ring
    simp only [Vector.getMagnitude] at harg h3 h4 ⊢
    rw [harg] at h3 h4 ⊢
    have hb : (sq (p.vel.x ^ 2 + p.vel.y ^ 2) * newTemp / p.temperature) ^ 2 =
        (p.vel.x ^ 2 + p.vel.y ^ 2) * (newTemp / p.temperature) ^ 2 := by
      field_simp
      linear_combination newTemp ^ 2 * h2
    have hbnn : 0 ≤ sq (p.vel.x ^ 2 + p.vel.y ^ 2) * newTemp / p.temperature :=
      div_nonneg (mul_nonneg h1 hnt.le) ht.le
    have heq : sq ((p.vel.x ^ 2 + p.vel.y ^ 2) * (newTemp / p.temperature) ^ 2) =
        sq (p.vel.x ^ 2 + p.vel.y ^ 2) * newTemp / p.temperature := by
      have hsq : (sq ((p.vel.x ^ 2 + p.vel.y ^ 2) * (newTemp / p.temperature) ^ 2) -
            sq (p.vel.x ^ 2 + p.vel.y ^ 2) * newTemp / p.temperature) *
          (sq ((p.vel.x ^ 2 + p.vel.y ^ 2) * (newTemp / p.temperature) ^ 2) +
            sq (p.vel.x ^ 2 + p.vel.y ^ 2) * newTemp / p.temperature) = 0 := by
        linear_combination h4 - hb
      rcases mul_eq_zero.mp hsq with hca | hcb
      · exact sub_eq_zero.mp hca
      · have hle : sq ((p.vel.x ^ 2 + p.vel.y ^ 2) * (newTemp / p.temperature) ^ 2) ≤ 0 := by
          linarith
        have hz := le_antisymm hle h3
        rw [hz]
        linarith
    rw [heq]
    field_simp
    ring

/-- C8 witness: for velocity `(3,4)` (magnitude 5), temperature 2 and new
temperature 4 the rescaled velocity is `(6,8)` (magnitude 10) and the
speed-to-temperature ratio 5/2 is preserved; and a particle with temperature 0
is untouched. -/
theorem changeTemperature_preserves_ratio_witness :
    (Particle.changeTemperature sqTable pT0 4 = pT0) ∧
    ((Particle.changeTemperature sqTable pV34 4).temperature = 4 ∧
      ((Particle.changeTemperature sqTable pV34 4).vel.getMagnitude sqTable) / 4 =
        (pV34.vel.getMagnitude sqTable) / pV34.temperature) := by
  have hconc : Particle.changeTemperature sqTable pV34 4 =
      ⟨"A", "blue", 10, ⟨0, 0⟩, ⟨6, 8⟩, 4, PState.active, 0⟩ := by
    norm_num [Particle.changeTemperature, pV34, sqTable, Vector.getMagnitude,
      Vector.getNormalized, Vector.getScaled]
  refine ⟨(changeTemperature_preserves_ratio sqTable pT0 4).1 (by norm_num [pT0]),
    (changeTemperature_preserves_ratio sqTable pV34 4).2 (by norm_num [pV34]) (by norm_num)
      (by norm_num [pV34, sqTable]) (by norm_num [pV34, sqTable])
      (by rw [hconc]; norm_num [sqTable]) (by rw [hconc]; norm_num [sqTable])⟩

/-- C9: when the pause flag is set a tick is a no-op, so any number of
consecutive tick invocations leaves the whole simulation state — live list,
creation queue, heap (hence every particle's position, velocity, state and
cooldown budget) — unchanged. -/
theorem updateFrame_paused_frozen (canvas : Dimensions) (rxns : List Reaction)
    (sq cq sn : ℚ → ℚ) (g : Nat → ℚ) (st : SimState)
    (hp : st.containerPaused = true) :
    ∀ n : Nat, (updateFrame canvas rxns sq cq sn g)^[n] st = st := by
  intro n
  induction n with
  | zero => rfl
  | succ k ih =>
      rw [Function.iterate_succ_apply', ih]
      simp [updateFrame, hp]

/-- C9 witness: three paused ticks on a concrete one-particle state change
nothing. -/
theorem updateFrame_paused_frozen_witness :
    stPaused.containerPaused = true ∧
    (updateFrame canvas800 [rxn2A2B] szero qid qid gzero)^[3] stPaused = stPaused :=
  ⟨rfl, updateFrame_paused_frozen canvas800 [rxn2A2B] szero qid qid gzero stPaused rfl 3⟩

/-- C10 (implicit): `Particle.update` does not preserve the Removed state —
whenever the cooldown budget is ≤ 0, the final branch sets the state to active
and the budget to 0, whatever the state was before, so a consumed (Removed)
particle that is updated before being swept is resurrected to Active. -/
theorem update_reactivates_nonpositive_cooldown (canvas : Dimensions) (sq : ℚ → ℚ)
    (p : Particle) (h : p.cooldownDist ≤ 0) :
    (Particle.update canvas sq p).state = PState.active ∧
    (Particle.update canvas sq p).cooldownDist = 0 := by
  have h1 : ¬ p.cooldownDist > 0 := not_lt.mpr h
  simp only [Particle.update, if_neg h1, if_pos (Or.inl h)]
  exact ⟨trivial, trivial⟩

/-- C10 witness: a Removed particle with zero cooldown budget comes back from
`update` in Active state with budget 0. -/
theorem update_reactivates_nonpositive_cooldown_witness :
    pRem.state = PState.removed ∧ pRem.cooldownDist ≤ 0 ∧
    (Particle.update canvas800 qid pRem).state = PState.active ∧
    (Particle.update canvas800 qid pRem).cooldownDist = 0 :=
  ⟨by decide, by decide,
    (update_reactivates_nonpositive_cooldown canvas800 qid pRem (by decide)).1,
    (update_reactivates_nonpositive_cooldown canvas800 qid pRem (by decide)).2⟩


/-- C5: scenario — with the single reversible rule `2A ⇌ 2B` and exactly two
Active "A" particles at the same position, one tick ends with both A particles
in Removed state and exactly two "B" particles in the creation queue, each in
Cooldown state with the full cooldown budget, positioned at the centroid
(average position) of the two consumed A particles.  Only `sqrt 0 = 0` is
assumed of the square-root primitive. -/
theorem scenario_two_A_react_to_two_B (sq cq sn : ℚ → ℚ) (g : Nat → ℚ) (h0 : sq 0 = 0) :
    (getP (st2A_tick sq cq sn g).store 0).state = PState.removed ∧
    (getP (st2A_tick sq cq sn g).store 1).state = PState.removed ∧
    (st2A_tick sq cq sn g).particleCreationQueue = [2, 3] ∧
    (∀ j ∈ (st2A_tick sq cq sn g).particleCreationQueue,
      (getP (st2A_tick sq cq sn g).store j).formula = "B" ∧
      (getP (st2A_tick sq cq sn g).store j).state = PState.cooldown ∧
      (getP (st2A_tick sq cq sn g).store j).cooldownDist = COOLDOWN_DIST ∧
      (getP (st2A_tick sq cq sn g).store j).pos =
        getAvgPos (st2A_tick sq cq sn g).store [0, 1]) := by
  have hupd : Particle.update canvas800 sq pA400 = pA400 := by
    unfold Particle.update
    norm_num [pA400, canvas800]
  have hg0 : getP st2A.store 0 = pA400 := by decide
  have hg1 : getP st2A.store 1 = pA400 := by decide
  have hset : setP st2A.store 0 pA400 = st2A.store := by decide
  have hset1 : setP st2A.store 1 pA400 = st2A.store := by decide
  have hst : pA400.state = PState.active := rfl
  have hsweep : sweepLoop canvas800 sq st2A.store [0, 1] = (st2A.store, [0, 1]) := by
    simp [sweepLoop, hg0, hg1, hset, hset1, hupd, hst]
  have hpos : pA400.pos = ⟨400, 400⟩ := rfl
  have hrad : pA400.radius = 10 := rfl
  have havail : buildAvail sq st2A.store 0 [0, 1] = [0, 1] := by
    norm_num [buildAvail, hg0, hg1, hst, hpos, hrad, getDist, h0]
  have hfwd : getFwdConsumedParticles st2A.store rxn2A2B [0, 1] = (some [0, 1], []) := by
    decide
  have hrm : removeParticles st2A.store [0, 1] = [(0, pA400r), (1, pA400r)] := by decide
  have hga0 : getP [(0, pA400r), (1, pA400r)] 0 = pA400r := by decide
  have hga1 : getP [(0, pA400r), (1, pA400r)] 1 = pA400r := by decide
  have hposr : pA400r.pos = ⟨400, 400⟩ := rfl
  have havg : getAvgPos [(0, pA400r), (1, pA400r)] [0, 1] = ⟨400, 400⟩ := by
    norm_num [getAvgPos, hga0, hga1, hposr]
  have h2 : ∀ idx, (createParticle cq sn g idx "B" ⟨400, 400⟩ 2 COOLDOWN_DIST).2 = idx + 2 := by
    intro idx
    unfold createParticle
    split <;> rfl
  have hcommit : commitDir cq sn g rxn2A2B.products 2 ⟨st2A.store, [0, 1], [], 2, 0⟩ [0, 1] [] =
      ⟨(3, (createParticle cq sn g 2 "B" ⟨400, 400⟩ 2 COOLDOWN_DIST).1) ::
        (2, (createParticle cq sn g 0 "B" ⟨400, 400⟩ 2 COOLDOWN_DIST).1) ::
        [(0, pA400r), (1, pA400r)], [], [2, 3], 4, 4⟩ := by
    simp [commitDir, hrm, havg, produceSide, createMany, h2, allocAll, rxn2A2B]
  have hatt : attemptReaction cq sn g rxn2A2B 2 ⟨st2A.store, [0, 1], [], 2, 0⟩ =
      (true, ⟨(3, (createParticle cq sn g 2 "B" ⟨400, 400⟩ 2 COOLDOWN_DIST).1) ::
        (2, (createParticle cq sn g 0 "B" ⟨400, 400⟩ 2 COOLDOWN_DIST).1) ::
        [(0, pA400r), (1, pA400r)], [], [2, 3], 4, 4⟩) := by
    simp only [attemptReaction, hfwd, hcommit]
  have htry : tryReactions cq sn g 2 [rxn2A2B] ⟨st2A.store, [0, 1], [], 2, 0⟩ =
      ⟨(3, (createParticle cq sn g 2 "B" ⟨400, 400⟩ 2 COOLDOWN_DIST).1) ::
        (2, (createParticle cq sn g 0 "B" ⟨400, 400⟩ 2 COOLDOWN_DIST).1) ::
        [(0, pA400r), (1, pA400r)], [], [2, 3], 4, 4⟩ := by
    simp [tryReactions, hatt]
  have hgetP_cons : ∀ (σ : Store) (k i : Nat) (p : Particle),
      getP ((k, p) :: σ) i = if i == k then p else getP σ i := by
    intro σ k i p
    simp only [getP, List.lookup]
    cases h : i == k <;> simp [h]
  have hstr : pA400r.state = PState.removed := rfl
  have hgp1f : getP ((3, (createParticle cq sn g 2 "B" ⟨400, 400⟩ 2 COOLDOWN_DIST).1) ::
      (2, (createParticle cq sn g 0 "B" ⟨400, 400⟩ 2 COOLDOWN_DIST).1) ::
      [(0, pA400r), (1, pA400r)]) 1 = pA400r := by
    simp [hgetP_cons]
  have hreact : reactLoop sq cq sn g 2 [rxn2A2B] [0, 1] [0, 1] (st2A.store, [], 2, 0) =
      ((3, (createParticle cq sn g 2 "B" ⟨400, 400⟩ 2 COOLDOWN_DIST).1) ::
        (2, (createParticle cq sn g 0 "B" ⟨400, 400⟩ 2 COOLDOWN_DIST).1) ::
        [(0, pA400r), (1, pA400r)], [2, 3], 4, 4) := by
    simp only [reactLoop, hg0, hst, havail, htry, hgp1f, hstr]
    norm_num
    exact fun hx => PState.noConfusion hx
  have ha : st2A.particleList = [0, 1] := rfl
  have hb : st2A.particleCreationQueue = [] := rfl
  have hc : st2A.containerPaused = false := rfl
  have hd : st2A.containerTemperature = 2 := rfl
  have he : st2A.nextId = 2 := rfl
  have hf2 : st2A.rnd = 0 := rfl
  have hfinal : st2A_tick sq cq sn g =
      { st2A with
          store := (3, (createParticle cq sn g 2 "B" ⟨400, 400⟩ 2 COOLDOWN_DIST).1) ::
            (2, (createParticle cq sn g 0 "B" ⟨400, 400⟩ 2 COOLDOWN_DIST).1) ::
            [(0, pA400r), (1, pA400r)]
          particleList := [0, 1]
          particleCreationQueue := [2, 3]
          nextId := 4
          rnd := 4 } := by
    simp only [st2A_tick, updateFrame, ha, hb, hc, hd, he, hf2, List.append_nil,
      Bool.false_eq_true, if_false, hsweep, hreact]
  have hcp : ∀ idx, ((createParticle cq sn g idx "B" ⟨400, 400⟩ 2 COOLDOWN_DIST).1.formula = "B" ∧
      (createParticle cq sn g idx "B" ⟨400, 400⟩ 2 COOLDOWN_DIST).1.state = PState.cooldown ∧
      (createParticle cq sn g idx "B" ⟨400, 400⟩ 2 COOLDOWN_DIST).1.cooldownDist = COOLDOWN_DIST ∧
      (createParticle cq sn g idx "B" ⟨400, 400⟩ 2 COOLDOWN_DIST).1.pos = ⟨400, 400⟩) := by
    intro idx
    unfold createParticle
    rw [if_pos (by norm_num [COOLDOWN_DIST, RADIUS])]
    exact ⟨rfl, rfl, rfl, rfl⟩
  have hgp0f : getP ((3, (createParticle cq sn g 2 "B" ⟨400, 400⟩ 2 COOLDOWN_DIST).1) ::
      (2, (createParticle cq sn g 0 "B" ⟨400, 400⟩ 2 COOLDOWN_DIST).1) ::
      [(0, pA400r), (1, pA400r)]) 0 = pA400r := by
    simp [hgetP_cons]
  have hgp2f : getP ((3, (createParticle cq sn g 2 "B" ⟨400, 400⟩ 2 COOLDOWN_DIST).1) ::
      (2, (createParticle cq sn g 0 "B" ⟨400, 400⟩ 2 COOLDOWN_DIST).1) ::
      [(0, pA400r), (1, pA400r)]) 2 = (createParticle cq sn g 0 "B" ⟨400, 400⟩ 2 COOLDOWN_DIST).1 := by
    simp [hgetP_cons]
  have hgp3f : getP ((3, (createParticle cq sn g 2 "B" ⟨400, 400⟩ 2 COOLDOWN_DIST).1) ::
      (2, (createParticle cq sn g 0 "B" ⟨400, 400⟩ 2 COOLDOWN_DIST).1) ::
      [(0, pA400r), (1, pA400r)]) 3 = (createParticle cq sn g 2 "B" ⟨400, 400⟩ 2 COOLDOWN_DIST).1 := by
    simp [hgetP_cons]
  have havgf : getAvgPos ((3, (createParticle cq sn g 2 "B" ⟨400, 400⟩ 2 COOLDOWN_DIST).1) ::
      (2, (createParticle cq sn g 0 "B" ⟨400, 400⟩ 2 COOLDOWN_DIST).1) ::
      [(0, pA400r), (1, pA400r)]) [0, 1] = ⟨400, 400⟩ := by
    norm_num [getAvgPos, hgp0f, hgp1f, hposr]
  rw [hfinal]
  simp only []
  refine ⟨?_, ?_, trivial, ?_⟩
  · rw [hgp0f, hstr]
  · rw [hgp1f, hstr]
  · intro j hj
    rcases List.mem_pair.mp hj with hj2 | hj3
    · subst hj2
      rw [hgp2f, havgf]
      exact ⟨(hcp 0).1, (hcp 0).2.1, (hcp 0).2.2.1, (hcp 0).2.2.2⟩
    · subst hj3
      rw [hgp3f, havgf]
      exact ⟨(hcp 2).1, (hcp 2).2.1, (hcp 2).2.2.1, (hcp 2).2.2.2⟩

/-- C5 witness: the scenario theorem instantiated at concrete numeric
primitives. -/
theorem scenario_two_A_react_to_two_B_witness :
    (getP (st2A_tick szero qid qid gzero).store 0).state = PState.removed ∧
    (getP (st2A_tick szero qid qid gzero).store 1).state = PState.removed ∧
    (st2A_tick szero qid qid gzero).particleCreationQueue = [2, 3] ∧
    (∀ j ∈ (st2A_tick szero qid qid gzero).particleCreationQueue,
      (getP (st2A_tick szero qid qid gzero).store j).formula = "B" ∧
      (getP (st2A_tick szero qid qid gzero).store j).state = PState.cooldown ∧
      (getP (st2A_tick szero qid qid gzero).store j).cooldownDist = COOLDOWN_DIST ∧
      (getP (st2A_tick szero qid qid gzero).store j).pos =
        getAvgPos (st2A_tick szero qid qid gzero).store [0, 1]) :=
  scenario_two_A_react_to_two_B szero qid qid gzero rfl


theorem sweepLoop_sublist (canvas : Dimensions) (sq : ℚ → ℚ) :
    ∀ (l : List Nat) (σ : Store), List.Sublist (sweepLoop canvas sq σ l).2 l := by
  intro l
  induction l with
  | nil => intro σ; exact List.Sublist.refl _
  | cons i rest ih =>
      intro σ
      simp only [sweepLoop]
      split
      · exact (ih σ).trans (List.sublist_cons_self i rest)
      · exact (ih _).cons₂ i

theorem allocAll_nextId_le :
    ∀ (ps : List Particle) (σ : Store) (nid : Nat), nid ≤ (allocAll σ nid ps).2.1 := by
  intro ps
  induction ps with
  | nil => intro σ nid; exact le_refl _
  | cons p rest ih =>
      intro σ nid
      simp only [allocAll]
      exact le_trans (Nat.le_succ nid) (ih _ (nid + 1))

theorem allocAll_ids_ge :
    ∀ (ps : List Particle) (σ : Store) (nid : Nat) (j : Nat),
      j ∈ (allocAll σ nid ps).2.2 → nid ≤ j := by
  intro ps
  induction ps with
  | nil => intro σ nid j hj; simp [allocAll] at hj
  | cons p rest ih =>
      intro σ nid j hj
      simp only [allocAll, List.mem_cons] at hj
      rcases hj with hj | hj
      · exact le_of_eq hj.symm
      · exact le_trans (Nat.le_succ nid) (ih _ (nid + 1) j hj)

theorem commitDir_queue_mono (cq sn : ℚ → ℚ) (g : Nat → ℚ) (side : List MolFormula)
    (t : ℚ) (s : RState) (consumed cands1 : List Nat) :
    s.nextId ≤ (commitDir cq sn g side t s consumed cands1).nextId ∧
    ∀ j ∈ (commitDir cq sn g side t s consumed cands1).queue,
      j ∈ s.queue ∨ s.nextId ≤ j := by
  simp only [commitDir]
  constructor
  · exact allocAll_nextId_le _ _ _
  · intro j hj
    rcases List.mem_append.mp hj with h | h
    · exact Or.inl h
    · exact Or.inr (allocAll_ids_ge _ _ _ j h)

theorem attemptReaction_queue_mono (cq sn : ℚ → ℚ) (g : Nat → ℚ) (r : Reaction)
    (t : ℚ) (s : RState) :
    s.nextId ≤ (attemptReaction cq sn g r t s).2.nextId ∧
    ∀ j ∈ (attemptReaction cq sn g r t s).2.queue, j ∈ s.queue ∨ s.nextId ≤ j := by
  rcases hf : getFwdConsumedParticles s.store r s.cands with ⟨o1, cands1⟩
  cases o1 with
  | some c =>
      simp only [attemptReaction, hf]
      exact commitDir_queue_mono cq sn g r.products t s c cands1
  | none =>
      rcases hr : getRevConsumedParticles s.store r cands1 with ⟨o2, cands2⟩
      cases hb : r.reversible with
      | false =>
          cases o2 <;>
            · simp only [attemptReaction, hf, hr, hb]
              exact ⟨le_refl _, fun j hj => Or.inl hj⟩
      | true =>
          cases o2 with
          | none =>
              simp only [attemptReaction, hf, hr, hb]
              exact ⟨le_refl _, fun j hj => Or.inl hj⟩
          | some c =>
              simp only [attemptReaction, hf, hr, hb]
              exact commitDir_queue_mono cq sn g r.reactants t s c cands2

theorem tryReactions_queue_mono (cq sn : ℚ → ℚ) (g : Nat → ℚ) (t : ℚ) :
    ∀ (rxns : List Reaction) (s : RState),
      s.nextId ≤ (tryReactions cq sn g t rxns s).nextId ∧
      ∀ j ∈ (tryReactions cq sn g t rxns s).queue, j ∈ s.queue ∨ s.nextId ≤ j := by
  intro rxns
  induction rxns with
  | nil => intro s; exact ⟨le_refl _, fun j hj => Or.inl hj⟩
  | cons r rest ih =>
      intro s
      obtain ⟨ha1, ha2⟩ := attemptReaction_queue_mono cq sn g r t s
      simp only [tryReactions]
      split
      · exact ⟨ha1, ha2⟩
      · obtain ⟨hb1, hb2⟩ := ih (attemptReaction cq sn g r t s).2
        refine ⟨le_trans ha1 hb1, ?_⟩
        intro j hj
        rcases hb2 j hj with hj1 | hj2
        · exact ha2 j hj1
        · exact Or.inr (le_trans ha1 hj2)

theorem reactLoop_queue_mono (sq cq sn : ℚ → ℚ) (g : Nat → ℚ) (t : ℚ)
    (rxns : List Reaction) (all : List Nat) :
    ∀ (l : List Nat) (σ : Store) (q : List Nat) (nid rnd : Nat),
      nid ≤ (reactLoop sq cq sn g t rxns all l (σ, q, nid, rnd)).2.2.1 ∧
      ∀ j ∈ (reactLoop sq cq sn g t rxns all l (σ, q, nid, rnd)).2.1,
        j ∈ q ∨ nid ≤ j := by
  intro l
  induction l with
  | nil => intro σ q nid rnd; exact ⟨le_refl _, fun j hj => Or.inl hj⟩
  | cons i rest ih =>
      intro σ q nid rnd
      simp only [reactLoop]
      split
      · exact ih σ q nid rnd
      · obtain ⟨ha1, ha2⟩ :=
          tryReactions_queue_mono cq sn g t rxns ⟨σ, buildAvail sq σ i all, q, nid, rnd⟩
        obtain ⟨hb1, hb2⟩ := ih
          (tryReactions cq sn g t rxns ⟨σ, buildAvail sq σ i all, q, nid, rnd⟩).store
          (tryReactions cq sn g t rxns ⟨σ, buildAvail sq σ i all, q, nid, rnd⟩).queue
          (tryReactions cq sn g t rxns ⟨σ, buildAvail sq σ i all, q, nid, rnd⟩).nextId
          (tryReactions cq sn g t rxns ⟨σ, buildAvail sq σ i all, q, nid, rnd⟩).rnd
        refine ⟨le_trans ha1 hb1, ?_⟩
        intro j hj
        rcases hb2 j hj with hj1 | hj2
        · exact ha2 j hj1
        · exact Or.inr (le_trans ha1 hj2)

/-- C6: products enqueued by reactions during a tick are not part of the live
collection during that tick.  Under the well-formedness assumption that every
live or queued id predates the allocator, an unpaused tick produces a live list
drawn only from the start-of-tick merge of the old live list with the old
queue, while every id in the new creation queue is freshly allocated and hence
not a member of the tick's live list; the queue itself is rebuilt from empty
(the old queue having been merged at the start of the tick). -/
theorem queued_products_not_live (canvas : Dimensions) (rxns : List Reaction)
    (sq cq sn : ℚ → ℚ) (g : Nat → ℚ) (st : SimState)
    (hp : st.containerPaused = false)
    (hwf : ∀ i ∈ st.particleList ++ st.particleCreationQueue, i < st.nextId) :
    List.Sublist (updateFrame canvas rxns sq cq sn g st).particleList
      (st.particleList ++ st.particleCreationQueue) ∧
    (∀ j ∈ (updateFrame canvas rxns sq cq sn g st).particleCreationQueue, st.nextId ≤ j) ∧
    (∀ j ∈ (updateFrame canvas rxns sq cq sn g st).particleCreationQueue,
      j ∉ (updateFrame canvas rxns sq cq sn g st).particleList) := by
  simp only [updateFrame, hp, Bool.false_eq_true, if_false]
  have hsub := sweepLoop_sublist canvas sq (st.particleList ++ st.particleCreationQueue) st.store
  have hq := reactLoop_queue_mono sq cq sn g st.containerTemperature rxns
    (sweepLoop canvas sq st.store (st.particleList ++ st.particleCreationQueue)).2
    (sweepLoop canvas sq st.store (st.particleList ++ st.particleCreationQueue)).2
    (sweepLoop canvas sq st.store (st.particleList ++ st.particleCreationQueue)).1
    [] st.nextId st.rnd
  refine ⟨hsub, ?_, ?_⟩
  · intro j hj
    rcases hq.2 j hj with hj1 | hj2
    · exact absurd hj1 (List.not_mem_nil j)
    · exact hj2
  · intro j hj hmem
    rcases hq.2 j hj with hj1 | hj2
    · exact absurd hj1 (List.not_mem_nil j)
    · exact absurd (hwf j (hsub.subset hmem)) (Nat.not_lt.mpr hj2)

/-- C6 witness: the queue-freshness theorem applied to the concrete 2A state
with concrete numeric primitives. -/
theorem queued_products_not_live_witness :
    (st2A.containerPaused = false ∧
      ∀ i ∈ st2A.particleList ++ st2A.particleCreationQueue, i < st2A.nextId) ∧
    (List.Sublist (updateFrame canvas800 [rxn2A2B] szero qid qid gzero st2A).particleList
        (st2A.particleList ++ st2A.particleCreationQueue) ∧
      (∀ j ∈ (updateFrame canvas800 [rxn2A2B] szero qid qid gzero st2A).particleCreationQueue,
        st2A.nextId ≤ j) ∧
      (∀ j ∈ (updateFrame canvas800 [rxn2A2B] szero qid qid gzero st2A).particleCreationQueue,
        j ∉ (updateFrame canvas800 [rxn2A2B] szero qid qid gzero st2A).particleList)) :=
  ⟨⟨rfl, by decide⟩,
    queued_products_not_live canvas800 [rxn2A2B] szero qid qid gzero st2A rfl (by decide)⟩

end Kinetics
